import Mathlib

/-!
Shallow embedding of the browser-driven report-acquisition core of the
WBagentforDasha repository (src/src/agents/browser_agent.py), together with
proofs about its header normalizer, download watcher, page-state detector
and session orchestrator.
-/

namespace WBagent

/-! ### Generic list helper

`padSet l i d v` models openpyxl's create-on-demand cell access followed by an
assignment: the list is padded with the default `d` up to index `i` and the
element at `i` is replaced by `v`. -/

def padSet {α : Type} : List α → Nat → α → α → List α
  | [], 0, _, v => [v]
  | [], i + 1, d, v => d :: padSet [] i d v
  | _ :: xs, 0, _, v => v :: xs
  | x :: xs, i + 1, d, v => x :: padSet xs i d v

theorem padSet_getD {α : Type} (l : List α) (i : Nat) (d v : α) :
    ∀ j, (padSet l i d v).getD j d = if i = j then v else l.getD j d := by
  induction l generalizing i with
  | nil =>
    induction i with
    | zero =>
      intro j
      cases j <;> simp [padSet]
    | succ i ih =>
      intro j
      cases j with
      | zero => simp [padSet]
      | succ j => simpa [padSet] using ih j
  | cons x xs ih =>
    intro j
    cases i with
    | zero => cases j <;> simp [padSet]
    | succ i =>
      cases j with
      | zero => simp [padSet]
      | succ j => simpa [padSet] using ih i j

theorem padSet_tail_zero {α : Type} (l : List α) (d v : α) :
    (padSet l 0 d v).tail = l.tail := by
  cases l <;> rfl

theorem padSet_length_zero {α : Type} (l : List α) (d v : α) :
    (padSet l 0 d v).length = max l.length 1 := by
  cases l <;> simp [padSet]

/-! ### Worksheet model (openpyxl objects used by `_replace_first_row`)

A worksheet is its grid of cell values (row-major, `none` = empty cell as in
openpyxl) plus the list of merged-cell ranges.  Coordinates are 1-based as in
openpyxl.  `delete_rows` does not rewrite merged-cell ranges (openpyxl leaves
them untouched), and assigning to a non-anchor cell of a merged range raises
(openpyxl's `MergedCell` value is read-only); both behaviours are modelled. -/

structure CellRange where
  minRow : Nat
  maxRow : Nat
  minCol : Nat
  maxCol : Nat
deriving DecidableEq

abbrev Row := List (Option String)

structure Worksheet where
  rows : List Row
  merged : List CellRange
deriving DecidableEq

def Worksheet.cellValue (ws : Worksheet) (row col : Nat) : Option String :=
  (ws.rows.getD (row - 1) []).getD (col - 1) none

def CellRange.covers (r : CellRange) (row col : Nat) : Bool :=
  r.minRow ≤ row && row ≤ r.maxRow && r.minCol ≤ col && col ≤ r.maxCol

def CellRange.isAnchor (r : CellRange) (row col : Nat) : Bool :=
  row == r.minRow && col == r.minCol

def Worksheet.isMergedNonAnchor (ws : Worksheet) (row col : Nat) : Bool :=
  ws.merged.any (fun r => r.covers row col && !(r.isAnchor row col))

/-- `ws.cell(row=.., column=..).value = v`: raises if the target is a merged
non-anchor cell, otherwise writes (creating the cell on demand). -/
def Worksheet.setCell (ws : Worksheet) (row col : Nat) (v : String) :
    Except String Worksheet :=
  if ws.isMergedNonAnchor row col then
    Except.error "MergedCell value is read-only"
  else
    Except.ok { ws with
      rows := padSet ws.rows (row - 1) []
        (padSet (ws.rows.getD (row - 1) []) (col - 1) none (some v)) }

/-- The 16 hard-coded headers of `_replace_first_row` (columns A-P). -/
def canonicalHeaders : List String :=
  ["Бренд", "Предмет", "Сезон", "Коллекция", "Наименование",
   "Артикул поставщика", "Номенклатура", "Баркод", "Размер", "Контракт",
   "Склад", "Заказано шт", "Заказано себестоимость", "Выкупили шт",
   "Выкупили руб", "Текущий остаток"]

/-- File/workbook operations performed by `_replace_first_row`, in order. -/
inductive FileEvent where
  | loadWorkbook
  | unmergeCells (r : CellRange)
  | deleteRows (n : Nat)
  | writeCell (row col : Nat)
  | saveWorkbook
  | closeWorkbook
deriving DecidableEq

/-- The `for col_idx, header in enumerate(headers, start=1)` loop writing the
hard-coded headers into row 1, with its trace of cell writes. -/
def writeHeadersFrom : Worksheet → Nat → List String →
    List FileEvent × Except String Worksheet
  | ws, _, [] => ([], Except.ok ws)
  | ws, col, h :: rest =>
    match ws.setCell 1 col h with
    | Except.error e => ([], Except.error e)
    | Except.ok ws' =>
      let r := writeHeadersFrom ws' (col + 1) rest
      (FileEvent.writeCell 1 col :: r.1, r.2)

/-- Step 1 of `_replace_first_row`: unmerge every merged range whose
`min_row` and `max_row` are both 1. -/
def unmergeRow1 (ws : Worksheet) : Worksheet :=
  { ws with merged := ws.merged.filter (fun r => !(r.minRow == 1 && r.maxRow == 1)) }

/-- Step 2 of `_replace_first_row`: `ws.delete_rows(1)` (merged ranges are not
rewritten by openpyxl). -/
def deleteRow1 (ws : Worksheet) : Worksheet :=
  { ws with rows := ws.rows.tail }

/-- `_replace_first_row`, instrumented with the trace of workbook operations it
performs: load, unmerge the row-1 merges, delete row 1, write the 16 headers,
then save and close (nothing afterwards). -/
def replace_first_row_trace (ws : Worksheet) :
    List FileEvent × Except String Worksheet :=
  let unmergedEvents :=
    (ws.merged.filter (fun r => r.minRow == 1 && r.maxRow == 1)).map
      FileEvent.unmergeCells
  let w := writeHeadersFrom (deleteRow1 (unmergeRow1 ws)) 1 canonicalHeaders
  match w.2 with
  | Except.ok ws3 =>
    (FileEvent.loadWorkbook ::
       (unmergedEvents ++ FileEvent.deleteRows 1 :: w.1 ++
        [FileEvent.saveWorkbook, FileEvent.closeWorkbook]),
     Except.ok ws3)
  | Except.error e =>
    (FileEvent.loadWorkbook :: (unmergedEvents ++ FileEvent.deleteRows 1 :: w.1),
     Except.error e)

/-- `_replace_first_row` (the resulting workbook; raises on failure). -/
def replace_first_row (ws : Worksheet) : Except String Worksheet :=
  (replace_first_row_trace ws).2

/-! ### Download watcher (`_wait_for_downloaded_file`)

The directory is modelled as a time-indexed listing (one poll per second, as
the loop sleeps 1s per iteration): at poll instant `t` each candidate file is
seen with a name, a size and a modification time.  The code returns the first
file whose size is positive and whose mtime lies more than 2 seconds in the
past; it performs no size-resampling. -/

structure FileObs where
  name : String
  size : Nat
  mtime : Int
deriving DecidableEq

/-- The per-file test of `_wait_for_downloaded_file`:
`st_size > 0` and `time.time() - st_mtime > 2`. -/
def fileReady (t : Nat) (f : FileObs) : Bool :=
  0 < f.size && 2 < (t : Int) - f.mtime

/-- The polling loop, one iteration per second starting at instant `t`, with
`fuel` iterations left (`while time.time() - start_time < timeout`). -/
def waitFrom (dir : Nat → List FileObs) (t : Nat) : Nat → Option (Nat × FileObs)
  | 0 => none
  | fuel + 1 =>
    match (dir t).find? (fileReady t) with
    | some f => some (t, f)
    | none => waitFrom dir (t + 1) fuel

/-- `_wait_for_downloaded_file(timeout)`: returns the poll instant and the file
found, or `none` on timeout. -/
def wait_for_downloaded_file (dir : Nat → List FileObs) (timeout : Nat) :
    Option (Nat × FileObs) :=
  waitFrom dir 0 timeout

/-- The size of the file named `n` as listed at instant `t`, if present. -/
def sizeAt (dir : Nat → List FileObs) (t : Nat) (n : String) : Option Nat :=
  ((dir t).find? (fun g => g.name == n)).map (fun g => g.size)

/-- The spec's acceptance condition for the watcher: the file's size was
sampled equal and positive across three samples taken with 1-second gaps
(hence the return instant is at least 2 seconds after the watch began). -/
def threeSampleStable (dir : Nat → List FileObs) (t : Nat) (f : FileObs) : Prop :=
  2 ≤ t ∧ 0 < f.size ∧
    sizeAt dir (t - 2) f.name = some f.size ∧
    sizeAt dir (t - 1) f.name = some f.size ∧
    sizeAt dir t f.name = some f.size

instance (dir : Nat → List FileObs) (t : Nat) (f : FileObs) :
    Decidable (threeSampleStable dir t f) := by
  unfold threeSampleStable; infer_instance

/-! ### Page state detector (`_detect_current_page_state`)

The live page is abstracted to what the detector inspects: the current URL and
whether each of the three reports-page landmarks is present.  The URL test is
Python's substring containment. -/

inductive PageState where
  | authRequired
  | reportsPage
  | unknownPage
deriving DecidableEq

structure PageProbe where
  url : String
  hasSuppliersSearch : Bool
  hasCalendarButton : Bool
  hasSalesHeading : Bool
deriving DecidableEq

def listContainsSub : List Char → List Char → Bool
  | pat, [] => pat.isPrefixOf ([] : List Char)
  | pat, c :: rest => pat.isPrefixOf (c :: rest) || listContainsSub pat rest

/-- Python's `pat in s` substring test. -/
def strContains (s pat : String) : Bool :=
  listContainsSub pat.toList s.toList

/-- The authentication-host substring checked first by the detector. -/
def authHost : String := "seller-auth.wildberries.ru"

/-- `_detect_current_page_state`: the URL check comes first; the three landmark
probes are only consulted when the URL does not contain the auth host. -/
def detect_current_page_state (p : PageProbe) : PageState :=
  if strContains p.url authHost then PageState.authRequired
  else if p.hasSuppliersSearch then PageState.reportsPage
  else if p.hasCalendarButton then PageState.reportsPage
  else if p.hasSalesHeading then PageState.reportsPage
  else PageState.unknownPage

/-! ### Session orchestrator (`execute_flow`)

The environment supplies the outcome of each successive call the orchestrator
makes: the `n`-th page-state detection, whether the `n`-th
`_perform_authorization` call returns normally (`true`) or raises (`false`),
and whether the `n`-th `process_cabinet` call returns a file (`true`) or `None`
(`false`).  `startOk` is whether `start_browser` succeeds. -/

def CABINETS : List (String × String) :=
  [("MAU", "53607"), ("MAB", "121614"), ("MMA", "174711"),
   ("cosmo", "224650"), ("dreamlab", "1140223"), ("beautylab", "4428365")]

structure Env where
  detect : Nat → PageState
  authOk : Nat → Bool
  cabinetOk : Nat → Bool
  startOk : Bool

/-- The final check of `_perform_authorization`: after the last submit it
re-checks authorization and raises when authorization is still required. -/
def authCompletionCheck (stillAuthRequired : Bool) : Except String Unit :=
  if stillAuthRequired then Except.error "Не удалось завершить авторизацию"
  else Except.ok ()

structure AuthLoopOut where
  authorized : Bool
  d : Nat
  a : Nat
  cycles : Nat
  unknowns : Nat
  slept : Nat
deriving DecidableEq

/-- The startup detect/react loop of `execute_flow` (`max_wait_cycles = 10`):
each cycle detects the state; on `auth_required` it runs the authentication
flow (an exception there is caught and monitoring continues) and re-detects;
on `reports_page` it breaks out authorized; on an unrecognized page it sleeps
30 seconds and retries.  `d`/`a` count the detect/auth calls consumed. -/
def authLoop (env : Env) : Nat → Nat → Nat → AuthLoopOut
  | 0, d, a => ⟨false, d, a, 0, 0, 0⟩
  | fuel + 1, d, a =>
    match env.detect d with
    | PageState.authRequired =>
      if env.authOk a then
        match env.detect (d + 1) with
        | PageState.reportsPage => ⟨true, d + 2, a + 1, 1, 0, 0⟩
        | _ =>
          let r := authLoop env fuel (d + 2) (a + 1)
          ⟨r.authorized, r.d, r.a, r.cycles + 1, r.unknowns, r.slept⟩
      else
        let r := authLoop env fuel (d + 1) (a + 1)
        ⟨r.authorized, r.d, r.a, r.cycles + 1, r.unknowns, r.slept⟩
    | PageState.reportsPage => ⟨true, d + 1, a, 1, 0, 0⟩
    | PageState.unknownPage =>
      let r := authLoop env fuel (d + 1) a
      ⟨r.authorized, r.d, r.a, r.cycles + 1, r.unknowns + 1, r.slept + 30⟩

structure CabPhaseOut where
  log : List (Nat × Bool)
  d : Nat
  a : Nat
  c : Nat
deriving DecidableEq

/-- The per-cabinet loop of `execute_flow` over the configured cabinet indices:
before each cabinet the state is re-detected; on `auth_required` the
authentication flow runs inside the per-cabinet `try` — if it raises, the
per-cabinet `except` catches it and the loop continues with the next cabinet
(so `process_cabinet` is not called for that cabinet); otherwise
`process_cabinet` runs (it never raises: it returns a file or `None`) and the
pair (cabinet index, outcome) is recorded. -/
def cabinetPhase (env : Env) : List Nat → Nat → Nat → Nat → CabPhaseOut
  | [], d, a, c => ⟨[], d, a, c⟩
  | i :: rest, d, a, c =>
    match env.detect d with
    | PageState.authRequired =>
      if env.authOk a then
        let r := cabinetPhase env rest (d + 1) (a + 1) (c + 1)
        ⟨(i, env.cabinetOk c) :: r.log, r.d, r.a, r.c⟩
      else
        cabinetPhase env rest (d + 1) (a + 1) c
    | _ =>
      let r := cabinetPhase env rest (d + 1) a (c + 1)
      ⟨(i, env.cabinetOk c) :: r.log, r.d, r.a, r.c⟩

structure RunResult where
  authorized : Bool
  startupCycles : Nat
  log : List (Nat × Bool)
  errMsg : Option String
  closeInvoked : Bool
deriving DecidableEq

def authFailMsg : String := "Не удалось авторизоваться"

/-- `execute_flow`: start the browser, run the startup loop (at most 10
cycles); if it ends unauthorized raise `authFailMsg` (no cabinet processed);
otherwise run the cabinet loop over all configured cabinets.  The `finally`
block invokes `close_browser` on every exit path. -/
def execute_flow (env : Env) : RunResult :=
  if !env.startOk then
    ⟨false, 0, [], some "browser start failed", true⟩
  else if (authLoop env 10 0 0).authorized then
    ⟨true, (authLoop env 10 0 0).cycles,
     (cabinetPhase env (List.range CABINETS.length)
       (authLoop env 10 0 0).d (authLoop env 10 0 0).a 0).log,
     none, true⟩
  else
    ⟨false, (authLoop env 10 0 0).cycles, [], some authFailMsg, true⟩

/-! ### Lemmas about the header normalizer -/

/-- No merged range of the sheet covers any cell of row 1. -/
def rowOneFree (ws : Worksheet) : Prop :=
  ∀ r ∈ ws.merged, ¬(r.minRow ≤ 1 ∧ 1 ≤ r.maxRow)

/-- Events that are neither an open of the workbook nor a save of it. -/
def plainEvent : FileEvent → Bool
  | FileEvent.unmergeCells _ => true
  | FileEvent.deleteRows _ => true
  | FileEvent.writeCell _ _ => true
  | _ => false

/-- A freshly exported sheet: two merged header labels confined to row 1, a
partial header in row 1 and one data row below. -/
def wsC1 : Worksheet :=
  ⟨[[some "Итого", none, some "шапка"], [some "a", some "b", some "c"]],
   [⟨1, 1, 1, 2⟩, ⟨1, 1, 4, 6⟩]⟩

/-- A sheet with a single row-1 merged label, used to inspect the normalizer's
operation trace. -/
def wsC3 : Worksheet :=
  ⟨[[some "шапка", none], [some "x", some "y"]], [⟨1, 1, 1, 2⟩]⟩

/-- An already-normalized sheet: row 1 is the canonical header, rows 2 and 3
hold data, no merged cells. -/
def wsC4 : Worksheet :=
  ⟨[canonicalHeaders.map some,
    List.replicate 16 (some "данные2"),
    List.replicate 16 (some "данные3")], []⟩

/-- A sheet whose merges include one range confined to row 1, one spanning
rows 1-2 and one confined to rows 2-3. -/
def wsC10 : Worksheet :=
  ⟨[[some "h"]], [⟨1, 1, 1, 4⟩, ⟨1, 2, 5, 5⟩, ⟨2, 3, 1, 2⟩]⟩

/-- The rows-1-2 merged range of `wsC10`. -/
def rC10 : CellRange := ⟨1, 2, 5, 5⟩

/-- A download directory where a fully written file (modification time already
3 seconds in the past, positive size) is listed from the very first poll. -/
def dirPre : Nat → List FileObs := fun _ => [⟨"report.xlsx", 100, -3⟩]

/-- The file listed by `dirPre`. -/
def filePre : FileObs := ⟨"report.xlsx", 100, -3⟩

/-- A download directory where the file grows during the first 3 seconds (its
modification time tracking each growth) and is stable from then on. -/
def dirGrow : Nat → List FileObs :=
  fun t => [⟨"report.xlsx", min t 3, (min t 3 : Nat)⟩]

/-- The stabilized file listed by `dirGrow` from instant 3 on. -/
def fileGrow : FileObs := ⟨"report.xlsx", 3, 3⟩

/-- An authentication page whose URL contains the auth host while all three
reports-page landmarks are simultaneously present. -/
def probeAuth : PageProbe :=
  ⟨"https://seller-auth.wildberries.ru/ru/?redirect=sales", true, true, true⟩

/-- A run where the startup detection immediately sees the reports page, but
the pre-cabinet re-detection for the first cabinet sees the auth page and
every authentication attempt raises. -/
def envAuthSkip : Env :=
  ⟨fun d => if d == 1 then PageState.authRequired else PageState.reportsPage,
   fun _ => false, fun _ => true, true⟩

/-- A run where the page is unrecognized for two detection cycles and then the
reports page appears. -/
def envAuthDelay : Env :=
  ⟨fun d => if d < 2 then PageState.unknownPage else PageState.reportsPage,
   fun _ => true, fun _ => true, true⟩

/-- A run where the page is never recognized. -/
def envNeverReady : Env :=
  ⟨fun _ => PageState.unknownPage, fun _ => true, fun _ => true, true⟩

/-- A run that is authorized immediately and where `process_cabinet` fails for
the second cabinet (index 1) and succeeds for the others. -/
def envRun : Env :=
  ⟨fun _ => PageState.reportsPage, fun _ => true, fun c => !(c == 1), true⟩

/-- Like `envRun` but with every cabinet succeeding. -/
def envRunAll : Env :=
  ⟨fun _ => PageState.reportsPage, fun _ => true, fun _ => true, true⟩

theorem isMergedNonAnchor_row1 (ws : Worksheet) (col : Nat) (h : rowOneFree ws) :
    ws.isMergedNonAnchor 1 col = false := by
  rw [Worksheet.isMergedNonAnchor, ← Bool.not_eq_true, List.any_eq_true]
  rintro ⟨r, hr, hp⟩
  simp only [CellRange.covers, CellRange.isAnchor, Bool.and_eq_true,
    decide_eq_true_eq, Bool.not_eq_true'] at hp
  exact h r hr ⟨hp.1.1.1.1, hp.1.1.1.2⟩

theorem setCell_row1_spec (ws : Worksheet) (col : Nat) (v : String)
    (hfree : rowOneFree ws) (hcol : 1 ≤ col) :
    ∃ wsm, ws.setCell 1 col v = Except.ok wsm ∧
      wsm.merged = ws.merged ∧
      wsm.rows.tail = ws.rows.tail ∧
      wsm.rows.length = max ws.rows.length 1 ∧
      ∀ c, 1 ≤ c → wsm.cellValue 1 c = if c = col then some v else ws.cellValue 1 c := by
  have hna := isMergedNonAnchor_row1 ws col hfree
  refine ⟨{ ws with rows := padSet ws.rows (1 - 1) [] (padSet (ws.rows.getD (1 - 1) []) (col - 1) none (some v)) }, ?_, rfl, ?_, ?_, ?_⟩
  · rw [Worksheet.setCell, hna]; rfl
  · exact padSet_tail_zero _ _ _
  · exact padSet_length_zero _ _ _
  · intro c hc
    simp only [Worksheet.cellValue, Nat.sub_self]
    rw [padSet_getD, if_pos rfl, padSet_getD]
    rcases eq_or_ne c col with h | h
    · rw [if_pos (by omega), if_pos h]
    · rw [if_neg (by omega), if_neg h]

theorem writeHeadersFrom_spec (hs : List String) :
    ∀ (ws : Worksheet) (col : Nat), rowOneFree ws → 1 ≤ col →
    ∃ ws', (writeHeadersFrom ws col hs).2 = Except.ok ws' ∧
      ws'.merged = ws.merged ∧
      ws'.rows.tail = ws.rows.tail ∧
      (hs = [] → ws' = ws) ∧
      (hs ≠ [] → ws'.rows.length = max ws.rows.length 1) ∧
      ∀ c, 1 ≤ c →
        ws'.cellValue 1 c =
          if col ≤ c ∧ c < col + hs.length then some (hs.getD (c - col) "")
          else ws.cellValue 1 c := by
  induction hs with
  | nil =>
    intro ws col _ _
    exact ⟨ws, rfl, rfl, rfl, fun _ => rfl, fun h => absurd rfl h,
      fun c _ => by rw [if_neg (by simp only [List.length_nil, Nat.add_zero]; omega)]⟩
  | cons h rest ih =>
    intro ws col hfree hcol
    obtain ⟨wsm, hset, hmg, htl, hlen, hcell⟩ := setCell_row1_spec ws col h hfree hcol
    have hfree' : rowOneFree wsm := by rw [rowOneFree, hmg]; exact hfree
    obtain ⟨ws', hw, hmg', htl', hnil', hlen', hcell'⟩ :=
      ih wsm (col + 1) hfree' (by omega)
    have heq : (writeHeadersFrom ws col (h :: rest)).2 =
        (writeHeadersFrom wsm (col + 1) rest).2 := by
      simp only [writeHeadersFrom, hset]
    refine ⟨ws', by rw [heq, hw], by rw [hmg', hmg], by rw [htl', htl], ?_, ?_, ?_⟩
    · intro hfalse; exact absurd hfalse (by simp)
    · intro _
      cases rest with
      | nil => rw [hnil' rfl, hlen]
      | cons r rs => rw [hlen' (by simp), hlen]; omega
    · intro c hc
      rw [hcell' c hc]
      rcases eq_or_ne c col with hcc | hcc
      · subst hcc
        rw [if_neg (by omega), hcell c hc, if_pos rfl,
          if_pos ⟨le_refl c, by simp only [List.length_cons]; omega⟩,
          Nat.sub_self, List.getD_cons_zero]
      · rcases Nat.lt_or_ge c (col + 1) with hlt | hge
        · rw [if_neg (by omega), hcell c hc, if_neg hcc,
            if_neg (by simp only [List.length_cons]; omega)]
        · rcases Nat.lt_or_ge c (col + 1 + rest.length) with hlt2 | hge2
          · rw [if_pos ⟨hge, hlt2⟩,
              if_pos ⟨by omega, by simp only [List.length_cons]; omega⟩,
              show c - col = (c - (col + 1)) + 1 from by omega,
              List.getD_cons_succ]
          · rw [if_neg (by omega), hcell c hc, if_neg hcc,
              if_neg (by simp only [List.length_cons]; omega)]

theorem rowOneFree_unmergeRow1 (ws : Worksheet)
    (h : ∀ r ∈ ws.merged, r.minRow ≤ 1 → 1 ≤ r.maxRow →
      r.minRow = 1 ∧ r.maxRow = 1) :
    rowOneFree (unmergeRow1 ws) := by
  intro r hr
  rw [unmergeRow1] at hr
  have hmem := List.mem_filter.mp hr
  rintro ⟨h1, h2⟩
  have hc := h r hmem.1 h1 h2
  simp [hc.1, hc.2] at hmem

theorem replace_first_row_eq_write (ws : Worksheet) :
    replace_first_row ws =
      (writeHeadersFrom (deleteRow1 (unmergeRow1 ws)) 1 canonicalHeaders).2 := by
  rw [replace_first_row, replace_first_row_trace]
  cases hw : (writeHeadersFrom (deleteRow1 (unmergeRow1 ws)) 1 canonicalHeaders).2 <;>
    simp [hw]

theorem replace_first_row_spec (ws : Worksheet)
    (h : ∀ r ∈ ws.merged, r.minRow ≤ 1 → 1 ≤ r.maxRow →
      r.minRow = 1 ∧ r.maxRow = 1) :
    ∃ ws', replace_first_row ws = Except.ok ws' ∧
      ws'.rows.tail = ws.rows.tail.tail ∧
      ws'.rows.length = max (ws.rows.length - 1) 1 ∧
      ∀ i < 16, ws'.cellValue 1 (i + 1) = some (canonicalHeaders.getD i "") := by
  have hfree : rowOneFree (deleteRow1 (unmergeRow1 ws)) :=
    rowOneFree_unmergeRow1 ws h
  obtain ⟨ws', hw, _, htl, _, hlen, hcell⟩ :=
    writeHeadersFrom_spec canonicalHeaders (deleteRow1 (unmergeRow1 ws)) 1 hfree le_rfl
  refine ⟨ws', by rw [replace_first_row_eq_write, hw], ?_, ?_, ?_⟩
  · rw [htl]; rfl
  · rw [hlen (by simp [canonicalHeaders])]
    show max (ws.rows.tail.length) 1 = _
    rw [List.length_tail]
  · intro i hi
    rw [hcell (i + 1) (by omega), if_pos ⟨by omega, by simp [canonicalHeaders]; omega⟩]
    simp

theorem writeHeadersFrom_plain (hs : List String) :
    ∀ (ws : Worksheet) (col : Nat), ∀ e ∈ (writeHeadersFrom ws col hs).1,
      plainEvent e = true := by
  induction hs with
  | nil => intro ws col e he; simp [writeHeadersFrom] at he
  | cons h rest ih =>
    intro ws col e he
    rw [writeHeadersFrom] at he
    cases hset : ws.setCell 1 col h with
    | error msg => rw [hset] at he; simp at he
    | ok ws' =>
      rw [hset] at he
      rcases List.mem_cons.mp he with he1 | he2
      · rw [he1]; rfl
      · exact ih ws' (col + 1) e he2

theorem count_load_of_plain {l : List FileEvent}
    (h : ∀ e ∈ l, plainEvent e = true) :
    l.count FileEvent.loadWorkbook = 0 := by
  induction l with
  | nil => rfl
  | cons x xs ih =>
    have hx := h x (List.mem_cons_self x xs)
    have hxs := ih fun e he => h e (List.mem_cons_of_mem x he)
    cases x <;> simp_all [List.count_cons, plainEvent]

theorem dropWhile_append_of_plain {l : List FileEvent} (tl : List FileEvent)
    (h : ∀ e ∈ l, plainEvent e = true) :
    (l ++ tl).dropWhile (fun e => e != FileEvent.saveWorkbook) =
      tl.dropWhile (fun e => e != FileEvent.saveWorkbook) := by
  induction l with
  | nil => rfl
  | cons x xs ih =>
    have hx := h x (List.mem_cons_self x xs)
    have hne : (x != FileEvent.saveWorkbook) = true := by
      cases x <;> simp_all [plainEvent]
    rw [List.cons_append]
    simp only [List.dropWhile_cons, hne, if_true]
    exact ih fun e he => h e (List.mem_cons_of_mem x he)

theorem dropWhile_nil_of_plain {l : List FileEvent}
    (h : ∀ e ∈ l, plainEvent e = true) :
    l.dropWhile (fun e => e != FileEvent.saveWorkbook) = [] := by
  have := dropWhile_append_of_plain (l := l) [] h
  simpa using this

/-- The events between the initial load and the final save of
`_replace_first_row` are only unmerges, the row deletion and cell writes. -/
theorem replace_first_row_mid_plain (ws : Worksheet) :
    ∀ e ∈ ((ws.merged.filter (fun r => r.minRow == 1 && r.maxRow == 1)).map
        FileEvent.unmergeCells ++ FileEvent.deleteRows 1 ::
        (writeHeadersFrom (deleteRow1 (unmergeRow1 ws)) 1 canonicalHeaders).1),
      plainEvent e = true := by
  intro e he
  rcases List.mem_append.mp he with h1 | h2
  · obtain ⟨r, _, hr⟩ := List.mem_map.mp h1
    rw [← hr]; rfl
  · rcases List.mem_cons.mp h2 with h3 | h4
    · rw [h3]; rfl
    · exact writeHeadersFrom_plain canonicalHeaders _ 1 e h4

/-! ### Claims about the header normalizer -/

/-- C1: for every workbook all of whose merged ranges touching row 1 are
confined to row 1 (any number of them, including zero), `_replace_first_row`
succeeds and leaves a workbook whose first-row cells A1-P1 are exactly the 16
canonical headers, in order, regardless of the original first row's contents
or merging. -/
theorem normalizer_row1_canonical (ws : Worksheet)
    (h : ∀ r ∈ ws.merged, r.minRow ≤ 1 → 1 ≤ r.maxRow →
      r.minRow = 1 ∧ r.maxRow = 1) :
    ∃ ws', replace_first_row ws = Except.ok ws' ∧
      ∀ i < 16, ws'.cellValue 1 (i + 1) = some (canonicalHeaders.getD i "") := by
  obtain ⟨ws', h1, _, _, h4⟩ := replace_first_row_spec ws h
  exact ⟨ws', h1, h4⟩

theorem normalizer_row1_canonical_witness :
    ∃ ws', replace_first_row wsC1 = Except.ok ws' ∧
      ∀ i < 16, ws'.cellValue 1 (i + 1) = some (canonicalHeaders.getD i "") :=
  normalizer_row1_canonical wsC1 (by decide)

/-- C3 (counterexample): on a concrete downloaded sheet the normalizer's
operation trace opens the workbook exactly once, and after the save nothing
happens except closing it — there is no re-open and no post-save check of the
16 header cells, contradicting the claimed verification step. -/
theorem normalizer_no_postsave_verification_cex :
    (replace_first_row_trace wsC3).1.count FileEvent.loadWorkbook = 1 ∧
    (replace_first_row_trace wsC3).1.dropWhile (fun e => e != FileEvent.saveWorkbook)
      = [FileEvent.saveWorkbook, FileEvent.closeWorkbook] := by decide

/-- C3 (amended): `_replace_first_row` performs no post-save verification on
any workbook: its operation trace contains exactly one open of the workbook,
and everything after the save (when the run reaches a save at all) is just the
close — it never re-opens the file or re-reads the header cells. -/
theorem normalizer_no_postsave_verification (ws : Worksheet) :
    (replace_first_row_trace ws).1.count FileEvent.loadWorkbook = 1 ∧
    ((replace_first_row_trace ws).1.dropWhile (fun e => e != FileEvent.saveWorkbook)
        = [FileEvent.saveWorkbook, FileEvent.closeWorkbook] ∨
     (replace_first_row_trace ws).1.dropWhile (fun e => e != FileEvent.saveWorkbook)
        = []) := by
  have hmid := replace_first_row_mid_plain ws
  rw [replace_first_row_trace]
  cases hw : (writeHeadersFrom (deleteRow1 (unmergeRow1 ws)) 1 canonicalHeaders).2 with
  | ok ws3 =>
    simp only
    constructor
    · rw [List.count_cons_self, List.count_append, count_load_of_plain hmid]
      decide
    · left
      rw [List.dropWhile_cons_of_pos (by decide),
        dropWhile_append_of_plain _ hmid]
      decide
  | error e =>
    simp only
    constructor
    · rw [List.count_cons_self, count_load_of_plain hmid]
    · right
      rw [List.dropWhile_cons_of_pos (by decide), dropWhile_nil_of_plain hmid]

/-- C4: header normalization is not idempotent — on an already-normalized
workbook (row 1 the canonical header, at least one data row, no merges
touching row 1) a second run of `_replace_first_row` drops one row (the
header), shifts the data up and overwrites the former first data row's 16
cells with the canonical header, so its output differs from its input. -/
theorem normalizer_not_idempotent (ws : Worksheet)
    (hfree : rowOneFree ws)
    (_hhdr : ∀ i < 16, ws.cellValue 1 (i + 1) = some (canonicalHeaders.getD i ""))
    (hlen : 2 ≤ ws.rows.length) :
    ∃ ws2, replace_first_row ws = Except.ok ws2 ∧
      ws2.rows.length + 1 = ws.rows.length ∧
      ws2.rows.tail = ws.rows.tail.tail ∧
      ws2 ≠ ws ∧
      ∀ i < 16, ws2.cellValue 1 (i + 1) = some (canonicalHeaders.getD i "") := by
  have h' : ∀ r ∈ ws.merged, r.minRow ≤ 1 → 1 ≤ r.maxRow →
      r.minRow = 1 ∧ r.maxRow = 1 := by
    intro r hr h1 h2
    exact absurd ⟨h1, h2⟩ (hfree r hr)
  obtain ⟨ws2, h1, h2, h3, h4⟩ := replace_first_row_spec ws h'
  have hml : ws2.rows.length = ws.rows.length - 1 := by
    rw [h3, Nat.max_eq_left (by omega)]
  refine ⟨ws2, h1, by omega, h2, ?_, h4⟩
  intro hEq
  rw [hEq] at hml
  omega

theorem normalizer_not_idempotent_witness :
    ∃ ws2, replace_first_row wsC4 = Except.ok ws2 ∧
      ws2.rows.length + 1 = wsC4.rows.length ∧
      ws2.rows.tail = wsC4.rows.tail.tail ∧
      ws2 ≠ wsC4 ∧
      ∀ i < 16, ws2.cellValue 1 (i + 1) = some (canonicalHeaders.getD i "") :=
  normalizer_not_idempotent wsC4
    (by intro r hr; exact absurd hr (by simp [wsC4]))
    (by decide) (by decide)

/-- C10: the unmerge step of `_replace_first_row` removes exactly the merged
ranges whose minimum and maximum row are both 1: a range of the workbook
survives the step iff it is not confined to row 1 (in particular a range
spanning rows 1 and 2 is left merged). -/
theorem unmerge_step_exactly_row1 (ws : Worksheet) (r : CellRange)
    (h : r ∈ ws.merged) :
    r ∈ (unmergeRow1 ws).merged ↔ ¬(r.minRow = 1 ∧ r.maxRow = 1) := by
  rw [unmergeRow1]
  simp [List.mem_filter, h]
  tauto

theorem unmerge_step_exactly_row1_witness :
    rC10 ∈ (unmergeRow1 wsC10).merged ↔ ¬(rC10.minRow = 1 ∧ rC10.maxRow = 1) :=
  unmerge_step_exactly_row1 wsC10 rC10 (by decide)

/-! ### Claims about the download watcher -/

theorem waitFrom_spec (dir : Nat → List FileObs) :
    ∀ (fuel t0 t : Nat) (f : FileObs),
      waitFrom dir t0 fuel = some (t, f) →
      t0 ≤ t ∧ f ∈ dir t ∧ fileReady t f = true ∧
        ∀ t', t0 ≤ t' → t' < t → (dir t').find? (fileReady t') = none := by
  intro fuel
  induction fuel with
  | zero => intro t0 t f h; simp [waitFrom] at h
  | succ fuel ih =>
    intro t0 t f h
    rw [waitFrom] at h
    cases hf : (dir t0).find? (fileReady t0) with
    | some g =>
      rw [hf] at h
      have hpair : t0 = t ∧ g = f := by
        have := Option.some.inj h
        exact ⟨congrArg Prod.fst this, congrArg Prod.snd this⟩
      obtain ⟨rfl, rfl⟩ := hpair
      exact ⟨le_rfl, List.mem_of_find?_eq_some hf, List.find?_some hf,
        fun t' h1 h2 => absurd (lt_of_le_of_lt h1 h2) (lt_irrefl _)⟩
    | none =>
      rw [hf] at h
      obtain ⟨h1, h2, h3, h4⟩ := ih (t0 + 1) t f h
      refine ⟨by omega, h2, h3, fun t' ht1 ht2 => ?_⟩
      rcases eq_or_lt_of_le ht1 with heq | hlt
      · rw [← heq]; exact hf
      · exact h4 t' (by omega) ht2

/-- C2 (counterexample): for a file that is already fully written when the
watch begins (positive size, modification time 3 seconds in the past),
`_wait_for_downloaded_file` returns it on the very first poll, at instant 0 —
without any three equal 1-second-spaced size samples, which would require the
return instant to be at least 2. -/
theorem watcher_no_three_samples_cex :
    wait_for_downloaded_file dirPre 60 = some (0, filePre) ∧
    ¬ threeSampleStable dirPre 0 filePre := by
  constructor
  · decide
  · decide

/-- C2 (amended): `_wait_for_downloaded_file` returns the file found at the
first poll instant at which some listed file has positive size and a
modification time more than 2 seconds in the past; no earlier poll had such a
file.  (It judges completion by modification-time age, not by re-sampling the
size three times; a file whose modification time tracks its growth is
therefore returned only after it has been stable for more than 2 seconds.) -/
theorem watcher_returns_only_stable (dir : Nat → List FileObs) (timeout t : Nat)
    (f : FileObs) (h : wait_for_downloaded_file dir timeout = some (t, f)) :
    f ∈ dir t ∧ 0 < f.size ∧ 2 < (t : Int) - f.mtime ∧
      ∀ t' < t, (dir t').find? (fileReady t') = none := by
  obtain ⟨_, h2, h3, h4⟩ := waitFrom_spec dir timeout 0 t f h
  rw [fileReady] at h3
  simp only [Bool.and_eq_true, decide_eq_true_eq] at h3
  exact ⟨h2, h3.1, h3.2, fun t' ht => h4 t' (Nat.zero_le _) ht⟩

theorem watcher_returns_only_stable_witness :
    fileGrow ∈ dirGrow 6 ∧ 0 < fileGrow.size ∧
      2 < ((6 : Nat) : Int) - fileGrow.mtime ∧
      (dirGrow 5).find? (fileReady 5) = none := by
  obtain ⟨h1, h2, h3, h4⟩ :=
    watcher_returns_only_stable dirGrow 60 6 fileGrow (by decide)
  exact ⟨h1, h2, h3, h4 5 (by omega)⟩

/-! ### Claim about the page state detector -/

/-- C9: whenever the current URL contains the authentication-host substring,
`_detect_current_page_state` returns `auth_required`, whatever the three
landmark probes would have said — the URL check precedes all landmark
checks. -/
theorem detector_url_precedence (p : PageProbe)
    (h : strContains p.url authHost = true) :
    detect_current_page_state p = PageState.authRequired := by
  rw [detect_current_page_state, if_pos h]

theorem detector_url_precedence_witness :
    detect_current_page_state probeAuth = PageState.authRequired :=
  detector_url_precedence probeAuth (by decide)

/-! ### Lemmas about the session orchestrator -/

theorem authLoop_cycles_le (env : Env) :
    ∀ fuel d a, (authLoop env fuel d a).cycles ≤ fuel := by
  intro fuel
  induction fuel with
  | zero => intro d a; exact le_rfl
  | succ fuel ih =>
    intro d a
    rw [authLoop]
    cases hd : env.detect d with
    | authRequired =>
      cases ha : env.authOk a with
      | true =>
        cases hd2 : env.detect (d + 1) with
        | reportsPage => exact Nat.succ_le_succ (Nat.zero_le _)
        | authRequired => exact Nat.succ_le_succ (ih (d + 2) (a + 1))
        | unknownPage => exact Nat.succ_le_succ (ih (d + 2) (a + 1))
      | false => exact Nat.succ_le_succ (ih (d + 1) (a + 1))
    | reportsPage => exact Nat.succ_le_succ (Nat.zero_le _)
    | unknownPage => exact Nat.succ_le_succ (ih (d + 1) a)

theorem authLoop_authorized_detect (env : Env) :
    ∀ fuel d a, (authLoop env fuel d a).authorized = true →
      env.detect ((authLoop env fuel d a).d - 1) = PageState.reportsPage := by
  intro fuel
  induction fuel with
  | zero => intro d a h; exact absurd h (by simp [authLoop])
  | succ fuel ih =>
    intro d a
    rw [authLoop]
    cases hd : env.detect d with
    | authRequired =>
      cases ha : env.authOk a with
      | true =>
        cases hd2 : env.detect (d + 1) with
        | reportsPage => intro _; exact hd2
        | authRequired => exact ih (d + 2) (a + 1)
        | unknownPage => exact ih (d + 2) (a + 1)
      | false => exact ih (d + 1) (a + 1)
    | reportsPage => intro _; exact hd
    | unknownPage => exact ih (d + 1) a

theorem authLoop_slept (env : Env) :
    ∀ fuel d a, (authLoop env fuel d a).slept =
      30 * (authLoop env fuel d a).unknowns := by
  intro fuel
  induction fuel with
  | zero => intro d a; rfl
  | succ fuel ih =>
    intro d a
    rw [authLoop]
    cases hd : env.detect d with
    | authRequired =>
      cases ha : env.authOk a with
      | true =>
        cases hd2 : env.detect (d + 1) with
        | reportsPage => rfl
        | authRequired => exact ih (d + 2) (a + 1)
        | unknownPage => exact ih (d + 2) (a + 1)
      | false => exact ih (d + 1) (a + 1)
    | reportsPage => rfl
    | unknownPage =>
      have := ih (d + 1) a
      show (authLoop env fuel (d + 1) a).slept + 30 =
        30 * ((authLoop env fuel (d + 1) a).unknowns + 1)
      omega

theorem execute_flow_unauthorized (env : Env)
    (hs : env.startOk = true)
    (h : (authLoop env 10 0 0).authorized = false) :
    (execute_flow env).log = [] ∧ (execute_flow env).errMsg = some authFailMsg := by
  rw [execute_flow, hs]
  simp [h]

theorem execute_flow_ok_of_authorized (env : Env)
    (hs : env.startOk = true)
    (h : (authLoop env 10 0 0).authorized = true) :
    (execute_flow env).errMsg = none := by
  rw [execute_flow, hs]
  simp [h]

theorem execute_flow_log_ne_authorized (env : Env)
    (h : (execute_flow env).log ≠ []) :
    (authLoop env 10 0 0).authorized = true := by
  cases hs : env.startOk with
  | false =>
    exfalso
    apply h
    rw [execute_flow, hs]
    rfl
  | true =>
    cases hx : (authLoop env 10 0 0).authorized with
    | true => rfl
    | false => exact absurd (execute_flow_unauthorized env hs hx).1 h

theorem cabinetPhase_log_sublist (env : Env) :
    ∀ (cabs : List Nat) (d a c : Nat),
      ((cabinetPhase env cabs d a c).log.map Prod.fst).Sublist cabs := by
  intro cabs
  induction cabs with
  | nil => intro d a c; simp [cabinetPhase]
  | cons i rest ih =>
    intro d a c
    rw [cabinetPhase]
    cases hd : env.detect d with
    | authRequired =>
      cases ha : env.authOk a with
      | true => exact List.Sublist.cons₂ i (ih (d + 1) (a + 1) (c + 1))
      | false => exact List.Sublist.cons i (ih (d + 1) (a + 1) c)
    | reportsPage => exact List.Sublist.cons₂ i (ih (d + 1) a (c + 1))
    | unknownPage => exact List.Sublist.cons₂ i (ih (d + 1) a (c + 1))

theorem cabinetPhase_log_fst_independent (env env' : Env)
    (hdet : env'.detect = env.detect) (hauth : env'.authOk = env.authOk) :
    ∀ (cabs : List Nat) (d a c : Nat),
      (cabinetPhase env' cabs d a c).log.map Prod.fst =
        (cabinetPhase env cabs d a c).log.map Prod.fst := by
  intro cabs
  induction cabs with
  | nil => intro d a c; rfl
  | cons i rest ih =>
    intro d a c
    rw [cabinetPhase, cabinetPhase, hdet, hauth]
    cases hd : env.detect d with
    | authRequired =>
      cases ha : env.authOk a with
      | true => simpa using ih (d + 1) (a + 1) (c + 1)
      | false => exact ih (d + 1) (a + 1) c
    | reportsPage => simpa using ih (d + 1) a (c + 1)
    | unknownPage => simpa using ih (d + 1) a (c + 1)

theorem cabinetPhase_all_processed (env : Env)
    (h : ∀ k, env.detect k ≠ PageState.authRequired) :
    ∀ (cabs : List Nat) (d a c : Nat),
      (cabinetPhase env cabs d a c).log.map Prod.fst = cabs := by
  intro cabs
  induction cabs with
  | nil => intro d a c; rfl
  | cons i rest ih =>
    intro d a c
    rw [cabinetPhase]
    cases hd : env.detect d with
    | authRequired => exact absurd hd (h d)
    | reportsPage => simpa using ih (d + 1) a (c + 1)
    | unknownPage => simpa using ih (d + 1) a (c + 1)

/-! ### Claims about the session orchestrator -/

/-- C5 (counterexample): an authentication failure is not fatal to the run —
in a run where the pre-cabinet re-detection for cabinet 0 sees the auth page
and the authentication flow raises, cabinet 0 is skipped but cabinets 1-5 are
still processed and the run finishes without error. -/
theorem auth_failure_not_fatal_cex :
    envAuthSkip.detect 1 = PageState.authRequired ∧
    envAuthSkip.authOk 0 = false ∧
    (execute_flow envAuthSkip).errMsg = none ∧
    (execute_flow envAuthSkip).log =
      [(1, true), (2, true), (3, true), (4, true), (5, true)] := by
  refine ⟨by decide, rfl, by decide, by decide⟩

/-- C5 (amended): when an authentication attempt ends with the page still
classified as requiring authentication, `_perform_authorization` raises; in
the per-cabinet loop that exception is caught for the cabinet at hand, which
is skipped without invoking its report flow, and processing continues with the
remaining cabinets (only exhausting the startup cycle bound makes the run
fail, which is covered by the startup-gate theorem). -/
theorem auth_failure_behavior (env : Env) (i : Nat) (rest : List Nat)
    (d a c : Nat)
    (hdet : env.detect d = PageState.authRequired)
    (hauth : env.authOk a = false) :
    authCompletionCheck true = Except.error "Не удалось завершить авторизацию" ∧
    cabinetPhase env (i :: rest) d a c = cabinetPhase env rest (d + 1) (a + 1) c := by
  refine ⟨rfl, ?_⟩
  rw [cabinetPhase, hdet, hauth]
  rfl

theorem auth_failure_behavior_witness :
    authCompletionCheck true = Except.error "Не удалось завершить авторизацию" ∧
    cabinetPhase envAuthSkip [0, 1] 1 0 0 = cabinetPhase envAuthSkip [1] 2 1 0 :=
  auth_failure_behavior envAuthSkip 0 [1] 1 0 0 (by decide) rfl

/-- C6: the startup detect/react loop runs at most 10 cycles; whenever it ends
authorized, the last detection it consumed returned the reports page (so
cabinet processing begins only after a ReportsReady detection — a nonempty
cabinet log implies the loop ended authorized); if the bound is exhausted
without reaching the reports page the run fails with the fatal startup error
and no cabinet is processed; and the loop sleeps exactly 30 seconds for each
cycle whose detection returned Unknown. -/
theorem startup_gate (env : Env) :
    (authLoop env 10 0 0).cycles ≤ 10 ∧
    ((authLoop env 10 0 0).authorized = true →
      env.detect ((authLoop env 10 0 0).d - 1) = PageState.reportsPage) ∧
    ((execute_flow env).log ≠ [] →
      (authLoop env 10 0 0).authorized = true) ∧
    (env.startOk = true → (authLoop env 10 0 0).authorized = false →
      (execute_flow env).log = [] ∧ (execute_flow env).errMsg = some authFailMsg) ∧
    (authLoop env 10 0 0).slept = 30 * (authLoop env 10 0 0).unknowns :=
  ⟨authLoop_cycles_le env 10 0 0,
   authLoop_authorized_detect env 10 0 0,
   execute_flow_log_ne_authorized env,
   fun hs h => execute_flow_unauthorized env hs h,
   authLoop_slept env 10 0 0⟩

theorem startup_gate_witness :
    envAuthDelay.detect ((authLoop envAuthDelay 10 0 0).d - 1) =
      PageState.reportsPage ∧
    (execute_flow envNeverReady).log = [] ∧
    (execute_flow envNeverReady).errMsg = some authFailMsg :=
  ⟨(startup_gate envAuthDelay).2.1 (by decide),
   ((startup_gate envNeverReady).2.2.2.1 rfl (by decide)).1,
   ((startup_gate envNeverReady).2.2.2.1 rfl (by decide)).2⟩

/-- C7: per-cabinet fault isolation — the processed cabinets form a
subsequence of the configured list (each cabinet is handed to
`process_cabinet` at most once, in order: no retry); which cabinets are
processed does not depend on the per-cabinet outcomes (a failed cabinet never
stops or repeats the iteration); when no re-authentication is ever needed,
every configured cabinet is processed despite any failures; and an authorized
run finishes without a propagated error whatever the per-cabinet outcomes. -/
theorem per_cabinet_fault_isolation (env env' : Env) (cabs : List Nat)
    (d a c : Nat)
    (hdet : env'.detect = env.detect) (hauth : env'.authOk = env.authOk) :
    ((cabinetPhase env cabs d a c).log.map Prod.fst).Sublist cabs ∧
    (cabinetPhase env' cabs d a c).log.map Prod.fst =
      (cabinetPhase env cabs d a c).log.map Prod.fst ∧
    ((∀ k, env.detect k ≠ PageState.authRequired) →
      (cabinetPhase env cabs d a c).log.map Prod.fst = cabs) ∧
    (env.startOk = true → (authLoop env 10 0 0).authorized = true →
      (execute_flow env).errMsg = none) :=
  ⟨cabinetPhase_log_sublist env cabs d a c,
   cabinetPhase_log_fst_independent env env' hdet hauth cabs d a c,
   fun h => cabinetPhase_all_processed env h cabs d a c,
   fun hs h => execute_flow_ok_of_authorized env hs h⟩

theorem per_cabinet_fault_isolation_witness :
    ((cabinetPhase envRun (List.range CABINETS.length) 1 0 0).log.map
      Prod.fst).Sublist (List.range CABINETS.length) ∧
    (cabinetPhase envRunAll (List.range CABINETS.length) 1 0 0).log.map
      Prod.fst =
      (cabinetPhase envRun (List.range CABINETS.length) 1 0 0).log.map
        Prod.fst ∧
    (cabinetPhase envRun (List.range CABINETS.length) 1 0 0).log.map
      Prod.fst = List.range CABINETS.length ∧
    (execute_flow envRun).errMsg = none := by
  obtain ⟨h1, h2, h3, h4⟩ :=
    per_cabinet_fault_isolation envRun envRunAll
      (List.range CABINETS.length) 1 0 0 rfl rfl
  exact ⟨h1, h2, h3 (fun k h => PageState.noConfusion h), h4 rfl (by decide)⟩

/-- C8: on every exit path of `execute_flow` — browser-start failure, fatal
startup failure, or completion of the cabinet loop — the `finally` block's
`close_browser` cleanup is invoked before the result propagates. -/
theorem browser_always_closed (env : Env) :
    (execute_flow env).closeInvoked = true := by
  rw [execute_flow]
  split
  · rfl
  · split <;> rfl

end WBagent
